import Mathlib

/-!
Verification of the dictionary-based classification engine of the
`gdp-dashboard` Streamlit app (`src/streamlit_app.py`).

The embedding models:
* Python scalar values reaching `classify` (`str`, `None`, float NaN, ints,
  bools) and Python's `str()` coercion (`pyStr`);
* the `classify` function (lines 41-54);
* the keyword parsing used by the Edit Dictionaries page
  (`[k.strip() for k in s.split(",") if k.strip()]`, lines 118-120 and 138-140);
* the Add-tactic flow (lines 132-143) as `addTactic`;
* the Run Classification page (lines 151-174): the `set(v)` conversion of each
  keyword list (line 155) and the flattening of the nested classification into
  data-frame columns (lines 162-171).

Python's `set` has an implementation-defined (hash-based) iteration order that
the language does not pin down.  Where only the set's CONTENT matters (the
dedup law, the column shape of the annotated table) the conversion is modelled
by `pySet`, first-occurrence deduplication of the construction list — a
particular admissible order.  Where the iteration order itself is at stake,
the development quantifies over every admissible order via `IsSetOrder`, so
its theorems cover whatever hash order CPython actually uses.
-/

namespace DictClassifier

/-- A Python scalar value as it can appear in the `Statement` column of the
uploaded data frame (pandas delivers missing cells as float NaN). -/
inductive PyValue where
  | PStr : String → PyValue
  | PNone : PyValue
  | PNaN : PyValue
  | PInt : Int → PyValue
  | PBool : Bool → PyValue
deriving DecidableEq, Repr

/-- Python's `str()` on such a value: `str(None) = "None"`,
`str(float("nan")) = "nan"`, `str(True) = "True"`. -/
def pyStr : PyValue → String
  | .PStr s => s
  | .PNone => "None"
  | .PNaN => "nan"
  | .PInt n => toString n
  | .PBool b => if b then "True" else "False"

/-- Test whether `needle` is an initial segment of `hay` (character lists). -/
def startsChars : List Char → List Char → Bool
  | [], _ => true
  | _ :: _, [] => false
  | a :: as, b :: bs => a == b && startsChars as bs

/-- Test whether `needle` occurs contiguously inside `hay` (character lists). -/
def isSubChars : List Char → List Char → Bool
  | n, [] => n.isEmpty
  | n, c :: t => startsChars n (c :: t) || isSubChars n t

/-- Python's substring test `needle in hay` on strings. -/
def strIn (needle hay : String) : Bool :=
  isSubChars needle.toList hay.toList

/-- Python's `str.lower()` (the inputs of this app are ASCII, where
`Char.toLower` agrees with Python), computed character-wise so that it
evaluates inside the kernel. -/
def pyLower (s : String) : String := ⟨s.data.map Char.toLower⟩

/-- Python's `str.strip()` with no argument: remove leading and trailing
whitespace (ASCII whitespace suffices for this app's inputs). -/
def pyStrip (s : String) : String :=
  ⟨((s.data.dropWhile Char.isWhitespace).reverse.dropWhile
      Char.isWhitespace).reverse⟩

/-- Helper for `pySplitComma`: split a character list at every comma, the
characters of the current chunk accumulated in reverse. -/
def splitCommaAux : List Char → List Char → List (List Char)
  | acc, [] => [acc.reverse]
  | acc, c :: cs =>
      if c = ',' then acc.reverse :: splitCommaAux [] cs
      else splitCommaAux (c :: acc) cs

/-- Python's `s.split(",")`: split at every comma; the empty string yields
`[""]`, and empty chunks are kept. -/
def pySplitComma (s : String) : List String :=
  (splitCommaAux [] s.data).map (fun cs => ⟨cs⟩)

/-- The per-tactic classification record built by `classify`
(lines 48-52): `{"present": bool(matches), "count": len(matches),
"matches": matches}`. -/
structure TacticResult where
  present : Bool
  count : Nat
  «matches» : List String
deriving DecidableEq, Repr

/-- A dictionary store: an ordered mapping from tactic name to its keyword
sequence (a Python `dict` iterates in insertion order). -/
abbrev Dicts := List (String × List String)

/-- One iteration of the `for tactic, keywords in dictionaries.items()` loop of
`classify` (lines 46-52): filter the keywords whose lower-cased form occurs in
the lower-cased text. -/
def classifyEntry (textLower : String) (p : String × List String) :
    String × TacticResult :=
  let ms := p.2.filter (fun kw => strIn (pyLower kw) textLower)
  (p.1, ⟨!ms.isEmpty, ms.length, ms⟩)

/-- The function `classify(text, dictionaries)` (lines 41-54).  The first step is
`text_lower = str(text).lower()`: any input value is coerced through `str()`. -/
def classify (text : PyValue) (dictionaries : Dicts) :
    List (String × TacticResult) :=
  dictionaries.map (classifyEntry (pyLower (pyStr text)))

/-- First-occurrence deduplication with an accumulator of already-seen
elements. -/
def dedupFirst (seen : List String) : List String → List String
  | [] => []
  | x :: xs => if x ∈ seen then dedupFirst seen xs else x :: dedupFirst (x :: seen) xs

/-- Python's `set(v)` on a keyword list, modelled as first-occurrence
deduplication: faithful in CONTENT (the distinct elements, each once) but
fixing one particular iteration order, while CPython iterates in hash order.
Used only where the order is immaterial; order-sensitive statements quantify
over every admissible order (`IsSetOrder`), of which `pySet v` is one
(`pySet_isSetOrder`). -/
def pySet (v : List String) : List String := dedupFirst [] v

/-- The set conversion `{k: set(v) for k, v in st.session_state["dictionaries"].items()}`
of line 155. -/
def storeSets (d : Dicts) : Dicts := d.map (fun p => (p.1, pySet p.2))

/-- An admissible iteration order of Python's `set(v)`: the distinct elements
of the construction list `v`, each exactly once, in SOME order.  CPython
iterates a set in hash-table order (randomized per process for strings), so
the language guarantees nothing beyond this; any property of the program that
depends on set iteration order must hold for every admissible order. -/
def IsSetOrder (v o : List String) : Prop :=
  o.Nodup ∧ (∀ x ∈ o, x ∈ v) ∧ (∀ x ∈ v, x ∈ o)

instance (v o : List String) : Decidable (IsSetOrder v o) := by
  unfold IsSetOrder
  infer_instance

/-- The treatment of one raw keyword in the comprehension
`[k.strip() for k in ... if k.strip()]`: trim, and drop entries that are empty
after trimming.  Applied element-wise; no deduplication happens here. -/
def parseKeywordList (ks : List String) : List String :=
  ks.filterMap (fun k => if pyStrip k = "" then none else some (pyStrip k))

/-- The comprehension `[k.strip() for k in s.split(",") if k.strip()]` on a comma-separated
string (lines 118-120 and 138-140). -/
def parseKeywordString (s : String) : List String :=
  parseKeywordList (pySplitComma s)

/-- The names of the tactics in the store, in insertion order
(`dictionaries.keys()`). -/
def names (d : Dicts) : List String := d.map Prod.fst

/-- The assignment `dictionaries[tactic] = [k.strip() for k in new_value.split(",") if k.strip()]`
(lines 118-120), for an existing tactic, with the keyword list already split
into a Python list.  A `dict` assignment to an existing key keeps its
position. -/
def setKeywords (d : Dicts) (t : String) (ks : List String) : Dicts :=
  d.map (fun p => if p.1 = t then (p.1, parseKeywordList ks) else p)

/-- The same edit path fed directly with the comma-separated text-area
string. -/
def setKeywordsStr (d : Dicts) (t : String) (s : String) : Dicts :=
  setKeywords d t (pySplitComma s)

/-- The two ways the Add-tactic flow rejects its input (lines 133-136):
an empty/whitespace-only name (`if not new_name.strip()`) and a name already
present (`elif new_name in dictionaries`). -/
inductive AddError where
  | invalidName : AddError
  | duplicateTactic : AddError
deriving DecidableEq, Repr

deriving instance DecidableEq for Except

/-- The "Add tactic" button handler (lines 132-143): reject a name that strips
to empty, then reject an exact-string duplicate, otherwise append
`dictionaries[new_name] = [k.strip() for k in new_keywords.split(",") if k.strip()]`
(a `dict` assignment to a fresh key appends at the end).  On failure the store
is returned untouched by the page (modelled by the `Except` error). -/
def addTactic (d : Dicts) (name : String) (newKeywords : String) :
    Except AddError Dicts :=
  if pyStrip name = "" then .error .invalidName
  else if name ∈ names d then .error .duplicateTactic
  else .ok (d ++ [(name, parseKeywordString newKeywords)])

/-- Lexicographic (code-point) comparison of character lists; this is how
Python orders strings. -/
def leChars : List Char → List Char → Bool
  | [], _ => true
  | _ :: _, [] => false
  | a :: as, b :: bs => if a = b then leChars as bs else decide (a < b)

/-- Python's `a <= b` on strings. -/
def strLe (a b : String) : Bool := leChars a.data b.data

/-- Insert a string into an ascending (by code points) list. -/
def insertSorted (x : String) : List String → List String
  | [] => [x]
  | y :: ys => if strLe x y then x :: y :: ys else y :: insertSorted x ys

/-- Python's `sorted(...)` on a list of strings (ascending code-point order). -/
def pySorted (l : List String) : List String := l.foldr insertSorted []

/-- The ASCII apostrophe, as it appears inside two default keywords. -/
def apos : String := (Char.ofNat 39).toString

/-- The built-in default dictionary store (lines 15-29), each keyword list
passed through `sorted(...)` exactly as in the source. -/
def defaultDictionaries : Dicts :=
  [("urgency_marketing", pySorted [
      "limited", "limited time", "limited run", "limited edition", "order now",
      "last chance", "hurry", "while supplies last",
      "before they" ++ apos ++ "re gone",
      "selling out", "selling fast", "act now", "don" ++ apos ++ "t wait",
      "today only", "expires soon", "final hours", "almost gone"]),
   ("exclusive_marketing", pySorted [
      "exclusive", "exclusively", "exclusive offer", "exclusive deal",
      "members only", "vip", "special access", "invitation only",
      "premium", "privileged", "limited access", "select customers",
      "insider", "private sale", "early access"])]

/-- A cell of the pandas data frame: either an uploaded scalar, one of the
flattened derived values (bool / int / joined string), or the nested
per-record classification dict stored in the `classification` column. -/
inductive Cell where
  | py : PyValue → Cell
  | pbool : Bool → Cell
  | pnat : Nat → Cell
  | pstr : String → Cell
  | cls : List (String × TacticResult) → Cell
deriving DecidableEq, Repr

/-- A data frame, modelled column-wise: ordered columns, each a name paired
with its cells (row `i` of the frame is cell `i` of every column). -/
abbrev Frame := List (String × List Cell)

/-- The ordered column names of a frame. -/
def colNames (f : Frame) : List String := f.map Prod.fst

/-- Read a column's cells (`df[name]`); the Run Classification page only reads
columns it has checked or just written. -/
def getCol (f : Frame) (name : String) : List Cell :=
  (List.lookup name f).getD []

/-- Column assignment `df[name] = values`: replace the column in place when the name exists,
otherwise append a new column at the end (pandas column assignment). -/
def setCol (f : Frame) (name : String) (vals : List Cell) : Frame :=
  if name ∈ colNames f then
    f.map (fun p => if p.1 = name then (name, vals) else p)
  else f ++ [(name, vals)]

/-- The scalar held by an uploaded cell, as handed to `classify`. -/
def cellPy : Cell → PyValue
  | .py v => v
  | .pbool b => .PBool b
  | .pnat n => .PInt (Int.ofNat n)
  | .pstr s => .PStr s
  | .cls _ => .PNone

/-- Indexing `d[tactic]` on a per-record classification dict.  `classify` returns a
result for every tactic of the store, so the lookup never actually falls back
to the default. -/
def tacticOf (r : List (String × TacticResult)) (t : String) : TacticResult :=
  (List.lookup t r).getD ⟨false, 0, []⟩

/-- The join `", ".join(matches)` of line 171. -/
def joinMatches (ms : List String) : String := String.intercalate ", " ms

/-- One iteration of the flattening loop `for tactic in dictionaries:`
(lines 168-171): write the three derived columns of one tactic from the
already-computed `classification` column. -/
def flattenStep (clsCol : List (List (String × TacticResult))) (acc : Frame)
    (p : String × List String) : Frame :=
  let acc1 := setCol acc (p.1 ++ "_present")
    (clsCol.map (fun d => Cell.pbool (tacticOf d p.1).present))
  let acc2 := setCol acc1 (p.1 ++ "_count")
    (clsCol.map (fun d => Cell.pnat (tacticOf d p.1).count))
  setCol acc2 (p.1 ++ "_matches")
    (clsCol.map (fun d => Cell.pstr (joinMatches (tacticOf d p.1).«matches»)))

/-- The "Run classifier" button handler (lines 155, 162-171): convert each
keyword list to a set, apply `classify` to every `Statement` cell, store the
nested results in a new `classification` column, then flatten them into three
columns per tactic. -/
def runClassification (df : Frame) (raw : Dicts) : Frame :=
  let dictionaries := storeSets raw
  let clsCol := (getCol df "Statement").map
    (fun c => classify (cellPy c) dictionaries)
  let df1 := setCol df "classification" (clsCol.map Cell.cls)
  dictionaries.foldl (flattenStep clsCol) df1

/-- The three derived columns of each tactic, in store order, as they stand
after the flattening loop. -/
def derivedCols (clsCol : List (List (String × TacticResult)))
    (dictionaries : Dicts) : Frame :=
  dictionaries.flatMap (fun p =>
    [(p.1 ++ "_present",
        clsCol.map (fun d => Cell.pbool (tacticOf d p.1).present)),
     (p.1 ++ "_count",
        clsCol.map (fun d => Cell.pnat (tacticOf d p.1).count)),
     (p.1 ++ "_matches",
        clsCol.map (fun d => Cell.pstr (joinMatches (tacticOf d p.1).«matches»)))])

/-! ## Helper lemmas -/

theorem filter_isEmpty_eq_not_any {α} (p : α → Bool) (l : List α) :
    (l.filter p).isEmpty = !l.any p := by
  induction l with
  | nil => rfl
  | cons a l ih => by_cases h : p a <;> simp [List.filter_cons, h, ih]

theorem mem_dedupFirst {x : String} :
    ∀ {seen l : List String}, x ∈ dedupFirst seen l → x ∈ l ∧ x ∉ seen := by
  intro seen l
  induction l generalizing seen with
  | nil => intro h; simp [dedupFirst] at h
  | cons y ys ih =>
    intro h
    by_cases hy : y ∈ seen
    · simp only [dedupFirst, if_pos hy] at h
      rcases ih h with ⟨h1, h2⟩
      exact ⟨List.mem_cons_of_mem _ h1, h2⟩
    · simp only [dedupFirst, if_neg hy] at h
      rcases List.mem_cons.mp h with rfl | h
      · exact ⟨List.mem_cons_self _ _, hy⟩
      · rcases ih h with ⟨h1, h2⟩
        refine ⟨List.mem_cons_of_mem _ h1, fun hs => h2 ?_⟩
        exact List.mem_cons_of_mem _ hs

theorem dedupFirst_nodup : ∀ (l seen : List String), (dedupFirst seen l).Nodup := by
  intro l
  induction l with
  | nil => intro seen; simp [dedupFirst]
  | cons y ys ih =>
    intro seen
    by_cases hy : y ∈ seen
    · simpa [dedupFirst, if_pos hy] using ih seen
    · simp only [dedupFirst, if_neg hy]
      refine List.nodup_cons.mpr ⟨fun hmem => ?_, ih (y :: seen)⟩
      exact (mem_dedupFirst hmem).2 (List.mem_cons_self _ _)

theorem pySet_nodup (l : List String) : (pySet l).Nodup := dedupFirst_nodup l []

theorem pySet_subset {x : String} {l : List String} (h : x ∈ pySet l) : x ∈ l :=
  (mem_dedupFirst h).1

theorem mem_dedupFirst_of_mem {x : String} :
    ∀ {seen l : List String}, x ∈ l → x ∉ seen → x ∈ dedupFirst seen l := by
  intro seen l
  induction l generalizing seen with
  | nil => intro hx; simp at hx
  | cons y ys ih =>
    intro hx hseen
    by_cases hy : y ∈ seen
    · simp only [dedupFirst, if_pos hy]
      rcases List.mem_cons.mp hx with rfl | hx'
      · exact absurd hy hseen
      · exact ih hx' hseen
    · simp only [dedupFirst, if_neg hy]
      rcases List.mem_cons.mp hx with rfl | hx'
      · exact List.mem_cons_self _ _
      · by_cases hxy : x = y
        · rw [hxy]
          exact List.mem_cons_self _ _
        · refine List.mem_cons_of_mem _ (ih hx' ?_)
          intro hm
          rcases List.mem_cons.mp hm with h | h
          · exact hxy h
          · exact hseen h

/-- The `pySet` model of line 155 picks one admissible iteration order of the
Python set, so every order-generic theorem below applies to it. -/
theorem pySet_isSetOrder (v : List String) : IsSetOrder v (pySet v) :=
  ⟨pySet_nodup v, fun _ hx => pySet_subset hx,
    fun _ hx => mem_dedupFirst_of_mem hx (by simp)⟩

/-! ## C1 — presence is lower-cased contiguous-substring containment -/

/-- C1 (counterexample): the spec's worked example is wrong on the code — the
keyword `"vip"` does NOT match inside the text `"arrival"` ("arrival" contains
no "p"), so `classify` reports `present = false` there. -/
theorem vip_not_in_arrival :
    (tacticOf (classify (.PStr "arrival") [("x", ["vip"])]) "x").present = false
    ∧ strIn "vip" "arrival" = false := by
  exact ⟨by decide, by decide⟩

/-- C1 (amended): for every tactic `t` with keyword list `ks` and every text
`s`, the per-tactic result of `classify` has `present = true` iff some keyword
of `ks` lower-cases to a contiguous substring of the lower-cased text; matching
is substring containment, not word-boundary tokenization — for example the
keyword `"rival"` matches inside the text `"arrival"`. -/
theorem present_iff_substring (t : String) (ks : List String) (s : String) :
    (tacticOf (classify (.PStr s) [(t, ks)]) t).present
        = ks.any (fun kw => strIn (pyLower kw) (pyLower s))
    ∧ ((tacticOf (classify (.PStr s) [(t, ks)]) t).present = true
        ↔ ∃ kw ∈ ks, strIn (pyLower kw) (pyLower s) = true)
    ∧ (tacticOf (classify (.PStr "arrival") [("x", ["rival"])]) "x").present
        = true := by
  have h1 : (tacticOf (classify (.PStr s) [(t, ks)]) t).present
      = ks.any (fun kw => strIn (pyLower kw) (pyLower s)) := by
    simp only [tacticOf, classify, pyStr, classifyEntry, List.map_cons,
      List.map_nil, List.lookup_cons_self, Option.getD_some]
    rw [filter_isEmpty_eq_not_any, Bool.not_not]
  refine ⟨h1, ?_, by decide⟩
  rw [h1]
  simp [List.any_eq_true]

/-! ## C9 — any input value is coerced through Python str() -/

/-- C9: `classify(v, d)` equals `classify(str(v), d)` for every input value —
the classifier's first step is `str(text).lower()` — and in particular a float
NaN statement is classified as the literal text `"nan"`, which matches a
keyword `"nan"`. -/
theorem classify_str_coercion :
    (∀ (v : PyValue) (d : Dicts), classify v d = classify (.PStr (pyStr v)) d)
    ∧ classify .PNaN [("t", ["nan"])]
        = [("t", ⟨true, 1, ["nan"]⟩)] :=
  ⟨fun _ _ => rfl, by decide⟩

/-! ## C2 — missing/null statements -/

/-- C2 (counterexample): a missing statement (pandas float NaN) is NOT treated
as the empty string: `str(float("nan")) = "nan"`, so against a tactic with
keyword `"nan"` the classifier reports `present = true`, refuting
"present = false ... for every tactic". -/
theorem nan_statement_matches_nan_keyword :
    (tacticOf (classify .PNaN [("t", ["nan"])]) "t").present = true
    ∧ (tacticOf (classify .PNaN [("t", ["nan"])]) "t")
        ≠ ⟨false, 0, []⟩ := by
  exact ⟨by decide, by decide⟩

/-- C2 (amended): a missing/null statement is coerced through Python `str()`
(NaN to the text `"nan"`, `None` to `"None"`), not to the empty string;
classification is total (never fails); and whenever no keyword of the store
lower-cases to a substring of `"nan"` (resp. `"none"`) — as in the default
store — every tactic reports `present = false, count = 0, matches = []`. -/
theorem null_statement_via_str (d : Dicts)
    (hnan : ∀ p ∈ d, ∀ kw ∈ p.2, strIn (pyLower kw) "nan" = false)
    (hnone : ∀ p ∈ d, ∀ kw ∈ p.2, strIn (pyLower kw) "none" = false) :
    classify .PNaN d = classify (.PStr "nan") d
    ∧ classify .PNone d = classify (.PStr "None") d
    ∧ (∀ q ∈ classify .PNaN d, q.2 = ⟨false, 0, []⟩)
    ∧ (∀ q ∈ classify .PNone d, q.2 = ⟨false, 0, []⟩) := by
  have hlow1 : pyLower "nan" = "nan" := by decide
  have hlow2 : pyLower "None" = "none" := by decide
  refine ⟨rfl, rfl, ?_, ?_⟩
  · intro q hq
    simp only [classify, pyStr, hlow1, List.mem_map] at hq
    obtain ⟨p, hp, rfl⟩ := hq
    have : p.2.filter (fun kw => strIn (pyLower kw) "nan") = [] :=
      List.filter_eq_nil_iff.mpr (fun kw hkw => by simp [hnan p hp kw hkw])
    simp [classifyEntry, this]
  · intro q hq
    simp only [classify, pyStr, hlow2, List.mem_map] at hq
    obtain ⟨p, hp, rfl⟩ := hq
    have : p.2.filter (fun kw => strIn (pyLower kw) "none") = [] :=
      List.filter_eq_nil_iff.mpr (fun kw hkw => by simp [hnone p hp kw hkw])
    simp [classifyEntry, this]

/-- C2 (witness): the amended statement instantiated at the default store. -/
theorem null_statement_via_str_witness :
    classify .PNaN defaultDictionaries
        = classify (.PStr "nan") defaultDictionaries
    ∧ classify .PNone defaultDictionaries
        = classify (.PStr "None") defaultDictionaries
    ∧ (∀ q ∈ classify .PNaN defaultDictionaries, q.2 = ⟨false, 0, []⟩)
    ∧ (∀ q ∈ classify .PNone defaultDictionaries, q.2 = ⟨false, 0, []⟩) :=
  null_statement_via_str defaultDictionaries (by decide) (by decide)

/-! ## C6 — present/count/matches invariant -/

/-- C6: every per-tactic result of `classify` satisfies
`present == (count > 0) == (len(matches) > 0)`. -/
theorem present_iff_count_pos (v : PyValue) (d : Dicts) :
    ∀ q ∈ classify v d,
      (q.2.present = true ↔ 0 < q.2.count)
      ∧ (q.2.present = true ↔ q.2.«matches» ≠ []) := by
  intro q hq
  simp only [classify, List.mem_map] at hq
  obtain ⟨p, _, rfl⟩ := hq
  simp only [classifyEntry]
  cases p.2.filter (fun kw => strIn (pyLower kw) (pyLower (pyStr v))) <;> simp

/-- C6 (witness): the invariant instantiated at a concrete matching record. -/
theorem present_iff_count_pos_witness :
    ((("t", (⟨true, 1, ["a"]⟩ : TacticResult)).2.present = true
        ↔ 0 < ("t", (⟨true, 1, ["a"]⟩ : TacticResult)).2.count)
    ∧ ((("t", (⟨true, 1, ["a"]⟩ : TacticResult)).2.present = true)
        ↔ ("t", (⟨true, 1, ["a"]⟩ : TacticResult)).2.«matches» ≠ [])) :=
  present_iff_count_pos (.PStr "a") [("t", ["a"])]
    ("t", ⟨true, 1, ["a"]⟩) (by decide)

/-! ## C8 — empty keyword set matches nothing -/

/-- C8: a tactic whose keyword set is empty yields
`present = false, count = 0, matches = []` from `classify`, for every input
text including the empty string. -/
theorem empty_keywords_all_false (v : PyValue) (d : Dicts) (t : String)
    (h : (t, ([] : List String)) ∈ d) :
    (t, (⟨false, 0, []⟩ : TacticResult)) ∈ classify v d :=
  List.mem_map_of_mem _ h

/-- C8 (witness): instantiated at the empty text and an empty-keyword
tactic. -/
theorem empty_keywords_all_false_witness :
    ("t", (⟨false, 0, []⟩ : TacticResult))
      ∈ classify (.PStr "") [("t", ([] : List String))] :=
  empty_keywords_all_false (.PStr "") [("t", [])] "t" (by decide)

/-! ## C3 — matches: no duplicates, drawn from the keyword set, iteration
order -/

/-- C3 (counterexample): the claim pins the matches to the tactic's keyword
INSERTION order, but line 155 converts each keyword list to a Python `set`,
which iterates in implementation-defined hash order.  `["b", "a"]` is an
admissible iteration order of the set built from the insertion list
`["a", "b"]`, and running `classify` over it on a text matching both keywords
yields the matches `["b", "a"]` — not the insertion order `["a", "b"]`.  So
"the entries appear in ... the tactic's keyword insertion order" is not a
property of the program. -/
theorem matches_not_insertion_order :
    IsSetOrder ["a", "b"] ["b", "a"]
    ∧ (tacticOf (classify (.PStr "ab") [("t", ["b", "a"])]) "t").«matches»
        = ["b", "a"]
    ∧ (["b", "a"] : List String) ≠ ["a", "b"] :=
  ⟨by decide, by decide, by decide⟩

/-- C3 (amended): for every store, every admissible set iteration order of its
keyword lists (covering whatever hash order CPython actually uses at line 155)
and every text, pairing each store entry with its result from `classify`: the
matches list has no duplicates, every entry is drawn from that tactic's
keyword set, the entries appear in the keyword set's iteration order — an
implementation-defined order of the distinct keywords, not necessarily the
insertion order, and not the order of appearance in the text — and `count` is
the number of distinct matching keywords, not an occurrence count. -/
theorem classify_matches_shape (d sets : Dicts) (v : PyValue)
    (h : List.Forall₂ (fun p q => p.1 = q.1 ∧ IsSetOrder p.2 q.2) d sets) :
    ∀ pq ∈ List.zip d (classify v sets),
      pq.2.1 = pq.1.1
      ∧ pq.2.2.«matches».Nodup
      ∧ (∀ m ∈ pq.2.2.«matches», m ∈ pq.1.2)
      ∧ (∃ o, IsSetOrder pq.1.2 o
          ∧ pq.2.2.«matches»
              = o.filter (fun kw => strIn (pyLower kw) (pyLower (pyStr v)))
          ∧ pq.2.2.«matches».Sublist o)
      ∧ pq.2.2.count = pq.2.2.«matches».length := by
  induction h with
  | nil =>
    intro pq hpq
    simp [classify] at hpq
  | @cons p q d' sets' h1 _ ih =>
    intro pq hpq
    simp only [classify, List.map_cons, List.zip_cons_cons,
      List.mem_cons] at hpq
    rcases hpq with rfl | hm
    · obtain ⟨hname, ho⟩ := h1
      have hq : classifyEntry (pyLower (pyStr v)) q
          = (q.1,
              ⟨!(q.2.filter
                  (fun kw => strIn (pyLower kw) (pyLower (pyStr v)))).isEmpty,
               (q.2.filter
                  (fun kw => strIn (pyLower kw) (pyLower (pyStr v)))).length,
               q.2.filter
                  (fun kw => strIn (pyLower kw) (pyLower (pyStr v)))⟩) := rfl
      rw [hq]
      refine ⟨hname.symm, ho.1.filter _, ?_, ⟨q.2, ho, rfl,
        List.filter_sublist _⟩, rfl⟩
      intro m hm
      exact ho.2.1 m (List.mem_of_mem_filter hm)
    · exact ih pq (by simpa [classify] using hm)

/-- C3 (witness): instantiated at the insertion-order store
`[("t", ["a", "b"])]`, its admissible set iteration order `["b", "a"]` and
the text `"ab"`, whose result pairs `("t", ["a", "b"])` with
`("t", ⟨true, 2, ["b", "a"]⟩)`. -/
theorem classify_matches_shape_witness :
    ("t" : String) = "t"
    ∧ (["b", "a"] : List String).Nodup
    ∧ (∀ m ∈ (["b", "a"] : List String), m ∈ (["a", "b"] : List String))
    ∧ (∃ o, IsSetOrder ["a", "b"] o
        ∧ (["b", "a"] : List String)
            = o.filter (fun kw => strIn (pyLower kw) (pyLower (pyStr (.PStr "ab"))))
        ∧ List.Sublist ["b", "a"] o)
    ∧ (2 : Nat) = (["b", "a"] : List String).length :=
  classify_matches_shape [("t", ["a", "b"])] [("t", ["b", "a"])] (.PStr "ab")
    (List.Forall₂.cons ⟨rfl, by decide⟩ List.Forall₂.nil)
    (("t", ["a", "b"]), ("t", ⟨true, 2, ["b", "a"]⟩)) (by decide)

/-! ## C4 — the dictionary edit path trims and filters but does not dedup -/

/-- C4 (counterexample): the edit path does NOT collapse exact-string
duplicates — `setKeywords(t, ["a", " a ", "A"])` stores the three entries
`["a", "a", "A"]`, not the claimed two. -/
theorem setKeywords_keeps_duplicates :
    setKeywords [("t", ["old"])] "t" ["a", " a ", "A"] ≠ [("t", ["a", "A"])]
    ∧ setKeywords [("t", ["old"])] "t" ["a", " a ", "A"]
        = [("t", ["a", "a", "A"])] :=
  ⟨by decide, by decide⟩

theorem parseKeywordList_shape (ks : List String) :
    ∀ k ∈ parseKeywordList ks, ∃ j ∈ ks, k = pyStrip j ∧ pyStrip j ≠ "" := by
  intro k hk
  simp only [parseKeywordList, List.mem_filterMap] at hk
  obtain ⟨j, hj, hjk⟩ := hk
  by_cases hs : pyStrip j = ""
  · simp [hs] at hjk
  · simp only [if_neg hs, Option.some.injEq] at hjk
    exact ⟨j, hj, hjk.symm, hs⟩

theorem lookup_setKeywords (t : String) (ks : List String) :
    ∀ (d : Dicts), t ∈ names d →
      List.lookup t (setKeywords d t ks) = some (parseKeywordList ks) := by
  intro d
  induction d with
  | nil => intro ht; simp [names] at ht
  | cons p rest ih =>
    intro ht
    simp only [names, List.map_cons] at ht
    simp only [setKeywords, List.map_cons]
    by_cases hpt : p.1 = t
    · rw [if_pos hpt]
      have hb : (t == p.1) = true := beq_iff_eq.mpr hpt.symm
      simp [List.lookup, hb]
    · rw [if_neg hpt]
      have hb : (t == p.1) = false :=
        beq_eq_false_iff_ne.mpr (fun he => hpt he.symm)
      have ht' : t ∈ names rest := by
        rcases List.mem_cons.mp ht with he | h
        · exact absurd he.symm hpt
        · exact h
      simp only [List.lookup, hb]
      exact ih ht'

/-- C4 (amended): the dictionary edit path trims each keyword and discards
entries empty after trimming, but preserves order and exact-string duplicates;
duplicates collapse only at classification time, when the Run Classification
page converts each list with `set(v)` — so `setKeywords(t, ["a", " a ", "A"])`
stores `["a", "a", "A"]`, whose classification-time set is `{"a", "A"}` (case
preserved). -/
theorem setKeywords_trim_filter (d : Dicts) (t : String) (ks : List String)
    (ht : t ∈ names d) :
    List.lookup t (setKeywords d t ks) = some (parseKeywordList ks)
    ∧ (∀ k ∈ parseKeywordList ks, ∃ j ∈ ks, k = pyStrip j ∧ pyStrip j ≠ "")
    ∧ parseKeywordList ["a", " a ", "A"] = ["a", "a", "A"]
    ∧ pySet (parseKeywordList ["a", " a ", "A"]) = ["a", "A"] :=
  ⟨lookup_setKeywords t ks d ht, parseKeywordList_shape ks, by decide, by decide⟩

/-- C4 (witness): the amended statement instantiated at the one-tactic store
`[("t", ["x"])]` and the keyword list of the dedup-law example. -/
theorem setKeywords_trim_filter_witness :
    List.lookup "t" (setKeywords [("t", ["x"])] "t" ["a", " a ", "A"])
        = some (parseKeywordList ["a", " a ", "A"])
    ∧ (∀ k ∈ parseKeywordList ["a", " a ", "A"],
        ∃ j ∈ (["a", " a ", "A"] : List String), k = pyStrip j ∧ pyStrip j ≠ "")
    ∧ parseKeywordList ["a", " a ", "A"] = ["a", "a", "A"]
    ∧ pySet (parseKeywordList ["a", " a ", "A"]) = ["a", "A"] :=
  setKeywords_trim_filter [("t", ["x"])] "t" ["a", " a ", "A"] (by decide)

/-! ## C7 — the Add-tactic flow -/

/-- C7 (counterexample): the inserted tactic's keywords are NOT deduplicated —
adding with keyword input `"a,  a , A"` stores the three entries
`["a", "a", "A"]`, not two. -/
theorem addTactic_keeps_duplicate_keywords :
    addTactic [] "t" "a,  a , A" ≠ .ok [("t", ["a", "A"])]
    ∧ addTactic [] "t" "a,  a , A" = .ok [("t", ["a", "a", "A"])] :=
  ⟨by decide, by decide⟩

/-- C7 (amended): over stores whose tactic names are not whitespace-only (an
invariant of every reachable store), `addTactic` fails with
`InvalidNameError` exactly when the name is empty/whitespace-only after
trimming, fails with `DuplicateTacticError` exactly when the exact name
already exists, and otherwise appends a new tactic whose keywords are trimmed
and filtered of empties exactly as in `setKeywords` (`parseKeywordString` in
both paths) — without deduplication, which happens only at classification
time.  On failure no new store is produced, so the store is unchanged. -/
theorem addTactic_spec (d : Dicts) (name newKeywords : String)
    (h : ∀ n ∈ names d, pyStrip n ≠ "") :
    (addTactic d name newKeywords = .error .invalidName
        ↔ pyStrip name = "")
    ∧ (addTactic d name newKeywords = .error .duplicateTactic
        ↔ name ∈ names d)
    ∧ (pyStrip name ≠ "" → name ∉ names d →
        addTactic d name newKeywords
          = .ok (d ++ [(name, parseKeywordString newKeywords)]))
    ∧ (∀ k ∈ parseKeywordString newKeywords,
        ∃ j ∈ pySplitComma newKeywords, k = pyStrip j ∧ pyStrip j ≠ "") := by
  by_cases h1 : pyStrip name = ""
  · have h2 : name ∉ names d := fun hm => (h name hm) h1
    exact ⟨by simp [addTactic, h1], by simp [addTactic, h1, h2],
      fun hc _ => absurd h1 hc, parseKeywordList_shape _⟩
  · by_cases h2 : name ∈ names d
    · exact ⟨by simp [addTactic, h1, h2], by simp [addTactic, h1, h2],
        fun _ hn => absurd h2 hn, parseKeywordList_shape _⟩
    · exact ⟨by simp [addTactic, h1, h2], by simp [addTactic, h1, h2],
        fun _ _ => by simp [addTactic, h1, h2], parseKeywordList_shape _⟩

/-- C7 (witness): instantiated at the default store and the name
`"urgency_marketing"`, which the duplicate check rejects (the spec's own
example). -/
theorem addTactic_spec_witness :
    (addTactic defaultDictionaries "urgency_marketing" "x"
        = .error .invalidName ↔ pyStrip "urgency_marketing" = "")
    ∧ (addTactic defaultDictionaries "urgency_marketing" "x"
        = .error .duplicateTactic
        ↔ "urgency_marketing" ∈ names defaultDictionaries)
    ∧ (pyStrip "urgency_marketing" ≠ ""
        → "urgency_marketing" ∉ names defaultDictionaries
        → addTactic defaultDictionaries "urgency_marketing" "x"
            = .ok (defaultDictionaries
                ++ [("urgency_marketing", parseKeywordString "x")]))
    ∧ (∀ k ∈ parseKeywordString "x",
        ∃ j ∈ pySplitComma "x", k = pyStrip j ∧ pyStrip j ≠ "") :=
  addTactic_spec defaultDictionaries "urgency_marketing" "x" (by decide)

/-! ## C10 — tactic names are stored verbatim, untrimmed -/

/-- C10: `addTactic` stores the supplied name exactly as given, without
trimming, appended at the end of the store; the duplicate check compares the
untrimmed name, so a name whose trimmed form already exists is still
accepted and the two coexist as distinct tactics. -/
theorem addTactic_name_verbatim (d : Dicts) (name newKeywords : String)
    (h1 : pyStrip name ≠ "") (h2 : name ∉ names d) :
    addTactic d name newKeywords
      = .ok (d ++ [(name, parseKeywordString newKeywords)])
    ∧ names (d ++ [(name, parseKeywordString newKeywords)])
        = names d ++ [name] :=
  ⟨by simp [addTactic, h1, h2], by simp [names]⟩

/-- C10 (witness): adding `" x "` to a store that already holds `"x"`
succeeds, and the store then holds both `"x"` and `" x "` as distinct
tactics. -/
theorem addTactic_name_verbatim_witness :
    addTactic [("x", [])] " x " "k"
      = .ok ([("x", [])] ++ [(" x ", parseKeywordString "k")])
    ∧ names ([("x", [])] ++ [(" x ", parseKeywordString "k")])
        = names [("x", [])] ++ [" x "] :=
  addTactic_name_verbatim [("x", [])] " x " "k" (by decide) (by decide)

/-! ## C5 — the shape of the annotated table -/

/-- The column names added by the flattening loop, three per tactic in store
order. -/
def derivedNames (D : Dicts) : List String :=
  D.flatMap (fun p => [p.1 ++ "_present", p.1 ++ "_count", p.1 ++ "_matches"])

/-- The nested per-record results, one per `Statement` cell in row order. -/
def clsColOf (df : Frame) (raw : Dicts) : List (List (String × TacticResult)) :=
  (getCol df "Statement").map (fun c => classify (cellPy c) (storeSets raw))

theorem colNames_append (f g : Frame) :
    colNames (f ++ g) = colNames f ++ colNames g := by
  simp [colNames]

theorem setCol_fresh (f : Frame) (n : String) (v : List Cell)
    (h : n ∉ colNames f) : setCol f n v = f ++ [(n, v)] := by
  simp [setCol, h]

theorem colNames_derivedCols (c : List (List (String × TacticResult)))
    (D : Dicts) : colNames (derivedCols c D) = derivedNames D := by
  induction D with
  | nil => rfl
  | cons p rest ih =>
    simp only [derivedCols, derivedNames, List.flatMap_cons] at ih ⊢
    rw [colNames_append, ih]
    rfl

theorem foldl_flattenStep (clsCol : List (List (String × TacticResult))) :
    ∀ (D : Dicts) (acc : Frame),
      (colNames acc ++ derivedNames D).Nodup →
      D.foldl (flattenStep clsCol) acc = acc ++ derivedCols clsCol D := by
  intro D
  induction D with
  | nil =>
    intro acc _
    simp [derivedCols]
  | cons p rest ih =>
    intro acc h
    have h' : (colNames acc
        ++ ([p.1 ++ "_present", p.1 ++ "_count", p.1 ++ "_matches"]
              ++ derivedNames rest)).Nodup := h
    rw [← List.append_assoc] at h'
    obtain ⟨ha, hb, hd⟩ := List.nodup_append.mp h
    have hn1 : p.1 ++ "_present" ∉ colNames acc := fun hm =>
      hd hm (by simp [derivedNames])
    have hn2 : p.1 ++ "_count" ∉ colNames acc := fun hm =>
      hd hm (by simp [derivedNames])
    have hn3 : p.1 ++ "_matches" ∉ colNames acc := fun hm =>
      hd hm (by simp [derivedNames])
    have hb' : ((p.1 ++ "_present") :: (p.1 ++ "_count") :: (p.1 ++ "_matches")
        :: derivedNames rest).Nodup := hb
    have hne12 : p.1 ++ "_present" ≠ p.1 ++ "_count" := by
      intro he
      have hx := (List.nodup_cons.mp hb').1
      rw [he] at hx
      exact hx (List.mem_cons_self _ _)
    have hne13 : p.1 ++ "_present" ≠ p.1 ++ "_matches" := by
      intro he
      have hx := (List.nodup_cons.mp hb').1
      rw [he] at hx
      exact hx (List.mem_cons_of_mem _ (List.mem_cons_self _ _))
    have hne23 : p.1 ++ "_count" ≠ p.1 ++ "_matches" := by
      intro he
      have hx := (List.nodup_cons.mp (List.nodup_cons.mp hb').2).1
      rw [he] at hx
      exact hx (List.mem_cons_self _ _)
    have hf2 : p.1 ++ "_count" ∉ colNames (acc ++ [(p.1 ++ "_present",
        clsCol.map (fun d => Cell.pbool (tacticOf d p.1).present))]) := by
      rw [colNames_append]
      intro hm
      rcases List.mem_append.mp hm with hm | hm
      · exact hn2 hm
      · have he : p.1 ++ "_count" = p.1 ++ "_present" := by
          simpa [colNames] using hm
        exact hne12 he.symm
    have hf3 : p.1 ++ "_matches" ∉ colNames ((acc ++ [(p.1 ++ "_present",
        clsCol.map (fun d => Cell.pbool (tacticOf d p.1).present))])
          ++ [(p.1 ++ "_count",
            clsCol.map (fun d => Cell.pnat (tacticOf d p.1).count))]) := by
      rw [colNames_append, colNames_append]
      intro hm
      rcases List.mem_append.mp hm with hm | hm
      · rcases List.mem_append.mp hm with hm | hm
        · exact hn3 hm
        · have he : p.1 ++ "_matches" = p.1 ++ "_present" := by
            simpa [colNames] using hm
          exact hne13 he.symm
      · have he : p.1 ++ "_matches" = p.1 ++ "_count" := by
          simpa [colNames] using hm
        exact hne23 he.symm
    have hstep : flattenStep clsCol acc p
        = acc ++ [(p.1 ++ "_present",
              clsCol.map (fun d => Cell.pbool (tacticOf d p.1).present)),
            (p.1 ++ "_count",
              clsCol.map (fun d => Cell.pnat (tacticOf d p.1).count)),
            (p.1 ++ "_matches",
              clsCol.map (fun d =>
                Cell.pstr (joinMatches (tacticOf d p.1).«matches»)))] := by
      simp only [flattenStep]
      rw [setCol_fresh _ _ _ hn1, setCol_fresh _ _ _ hf2,
        setCol_fresh _ _ _ hf3]
      simp [List.append_assoc]
    calc (p :: rest).foldl (flattenStep clsCol) acc
        = rest.foldl (flattenStep clsCol) (flattenStep clsCol acc p) := by
          rw [List.foldl_cons]
      _ = acc ++ derivedCols clsCol (p :: rest) := by
          rw [hstep]
          rw [ih _ (by
            rw [colNames_append]
            simpa [colNames, derivedNames, List.append_assoc] using h')]
          simp [derivedCols, List.flatMap_cons, List.append_assoc]

/-- C5 (counterexample): the flattening does not only append the three derived
columns per tactic — it also appends a `classification` column holding the
nested per-record result, so the claim's "no other columns are added" fails. -/
theorem runClassification_adds_nested_column :
    colNames (runClassification
        [("Statement", [Cell.py (.PStr "hurry now")])] [("u", ["hurry"])])
      ≠ ["Statement", "u_present", "u_count", "u_matches"]
    ∧ colNames (runClassification
        [("Statement", [Cell.py (.PStr "hurry now")])] [("u", ["hurry"])])
      = ["Statement", "classification", "u_present", "u_count", "u_matches"] :=
  ⟨by decide, by decide⟩

/-- C5 (amended): when the uploaded frame has a `Statement` column and none of
the appended names collides (true of any freshly uploaded frame), the Run
Classification pass returns the same table with row order preserved and the
original columns unchanged, followed by a `classification` column holding the
nested per-record results, followed, for each tactic in store order, by
exactly the three derived columns `<tactic>_present`, `<tactic>_count` and
`<tactic>_matches` (the matched keywords joined with comma-space); no further
columns are added. -/
theorem runClassification_frame (df : Frame) (raw : Dicts)
    (hstmt : "Statement" ∈ colNames df)
    (h : (colNames df
          ++ "classification" :: derivedNames (storeSets raw)).Nodup) :
    runClassification df raw
      = df ++ ("classification", (clsColOf df raw).map Cell.cls)
          :: derivedCols (clsColOf df raw) (storeSets raw) := by
  obtain ⟨ha, hb, hd⟩ := List.nodup_append.mp h
  have hc : "classification" ∉ colNames df := fun hm => hd hm (by simp)
  simp only [runClassification, clsColOf]
  rw [setCol_fresh _ _ _ hc]
  have h' : (colNames (df ++ [("classification",
        ((getCol df "Statement").map
          (fun c => classify (cellPy c) (storeSets raw))).map Cell.cls)])
      ++ derivedNames (storeSets raw)).Nodup := by
    rw [colNames_append]
    have h2 : ((colNames df ++ ["classification"])
        ++ derivedNames (storeSets raw)).Nodup := by
      rw [List.append_assoc]
      simpa using h
    simpa [colNames] using h2
  rw [foldl_flattenStep _ _ _ h']
  simp [List.append_assoc]

/-- C5 (witness): the amended statement instantiated at a two-row frame and a
one-tactic store. -/
theorem runClassification_frame_witness :
    runClassification
        [("Statement", [Cell.py (.PStr "hurry now"), Cell.py .PNaN])]
        [("u", ["hurry"])]
      = [("Statement", [Cell.py (.PStr "hurry now"), Cell.py .PNaN])]
          ++ ("classification",
                (clsColOf [("Statement",
                    [Cell.py (.PStr "hurry now"), Cell.py .PNaN])]
                  [("u", ["hurry"])]).map Cell.cls)
            :: derivedCols
                (clsColOf [("Statement",
                    [Cell.py (.PStr "hurry now"), Cell.py .PNaN])]
                  [("u", ["hurry"])])
                (storeSets [("u", ["hurry"])]) :=
  runClassification_frame
    [("Statement", [Cell.py (.PStr "hurry now"), Cell.py .PNaN])]
    [("u", ["hurry"])] (by decide) (by decide)

end DictClassifier
